import Mathlib

/-
  Verification development for the fastjson library
  (a JSON serialization/deserialization library with a derive facility).

  The embedding translates:
    - src/src/value.rs   : the Value model and its compact Display emitter;
    - src/src/ser.rs     : the Serialize bodies and the pretty printer;
    - src/src/de.rs      : the Deserialize bodies and the character-cursor parser;
    - the encoder/decoder bodies that fastjson-derive/src/lib.rs generates for
      the Person record and the Status tagged union declared in src/tests/lib.rs.

  Modelling conventions:
    - Rust f64 payloads are modelled exactly by the inductive F64 below: a
      finite value is an exact decimal m * 10^e (the only finite values this
      development ever constructs are exactly representable in binary64, where
      the model agrees with the machine arithmetic), plus infinities and NaN.
      Overflow of string-to-float conversion to infinity is modelled at the
      exact IEEE-754 round-to-nearest threshold (2^54 - 1) * 2^970.
    - Rust HashMap<String, Value> is modelled as an association list without
      duplicate keys; insert replaces in place, iteration follows insertion
      order (the real iteration order is unspecified; no theorem depends on
      an ordering beyond the deterministic model order).
    - Byte positions: the Rust parser works on str::char_indices byte offsets.
      The parser state tracks them through Char.utf8Size.
-/

set_option maxRecDepth 8000

namespace FastJson

/-- Power of ten on naturals, written through Nat.pow so that kernel
evaluation uses the accelerated primitive. -/
def pow10 (k : Nat) : Nat := Nat.pow 10 k

/-- The smallest decimal magnitude that IEEE-754 binary64 round-to-nearest
rounds to infinity: (2^54 - 1) * 2^970, given here as a literal so kernel
evaluation never has to raise 2 to the 970th power. -/
def f64OverflowThreshold : Nat := 179769313486231580793728971405303415079934132710037826936173778980444968292764750946649017977587207096330286416692887910946555547851940402630657488671505820681908902000708383676273854845817711531764475730270069855571366959622842914819860834936475292719074168444365510704342711559699508093042880177904174497792

/-- Model of a Rust f64 value as stored in Value::Number. A finite value is
the exact rational m * 10^e; every finite payload a theorem of this file
constructs or inspects is exactly representable in binary64, so the model
coincides with the machine value there. -/
inductive F64 where
  | fin (m : Int) (e : Int)
  | inf
  | neginf
  | nan
deriving DecidableEq

/-- `n < c` for an f64 n and an exactly-representable integer constant c
(comparisons against NaN are false, -inf compares below everything). -/
def F64.ltInt : F64 → Int → Bool
  | .fin m e, c => if 0 ≤ e then m * (pow10 e.toNat : Int) < c else m < c * (pow10 (-e).toNat : Int)
  | .inf, _ => false
  | .neginf, _ => true
  | .nan, _ => false

/-- `n > c` for an f64 n and an exactly-representable integer constant c. -/
def F64.gtInt : F64 → Int → Bool
  | .fin m e, c => if 0 ≤ e then c < m * (pow10 e.toNat : Int) else c * (pow10 (-e).toNat : Int) < m
  | .inf, _ => true
  | .neginf, _ => false
  | .nan, _ => false

/-- Models `n.fract() != 0.0`: true exactly when the value is not an integer.
For inf, neginf and NaN, fract is NaN and `NaN != 0.0` holds, so the result
is true. -/
def F64.fractNeZero : F64 → Bool
  | .fin m e => if 0 ≤ e then false else decide (¬ m % (pow10 (-e).toNat : Int) = 0)
  | _ => true

/-- The integer value of an integer-valued finite f64 (used to model `n as iN`
after the deserializers' range and integrality checks; the non-finite branches
are never reached past those checks). -/
def F64.toIntVal : F64 → Int
  | .fin m e => if 0 ≤ e then m * (pow10 e.toNat : Int) else m / (pow10 (-e).toNat : Int)
  | _ => 0

/-- Models `self.is_finite()`. -/
def F64.isFinite : F64 → Bool
  | .fin _ _ => true
  | _ => false

/-- Models `x as f64` for an integer x: exact whenever |x| ≤ 2^53, which covers
every integer this development converts. -/
def F64.ofInt (x : Int) : F64 := .fin x 0

/-- Display of an f64, as in Rust's `{}` formatting. Integer-valued payloads
(the only ones any theorem of this file renders) print exactly as Rust does;
a fractional payload is printed as its exact decimal expansion, where Rust
prints the shortest round-tripping form. No theorem depends on the
fractional branch. -/
def f64Display : F64 → String
  | .fin m e =>
    if 0 ≤ e then toString (m * (pow10 e.toNat : Int))
    else
      let d := (-e).toNat
      let sign := if m < 0 then "-" else ""
      let digits := (Nat.repr m.natAbs).data
      let padded := if digits.length ≤ d then List.replicate (d + 1 - digits.length) '0' ++ digits else digits
      sign ++ String.mk (padded.take (padded.length - d)) ++ "." ++ String.mk (padded.drop (padded.length - d))
  | .inf => "inf"
  | .neginf => "-inf"
  | .nan => "NaN"

/-- Models src/src/value.rs `enum Value`. Object carries the entries of the
HashMap in one concrete (insertion) order, without duplicate keys. -/
inductive Value where
  | Null
  | Bool (b : Bool)
  | Number (n : F64)
  | String (s : String)
  | Array (items : List Value)
  | Object (entries : List (String × Value))

/-- Models `Value::is_null` (the result type is the Bool of booleans, left to
inference because the name Bool is shadowed by the Value constructor inside
this namespace). -/
def Value.is_null (v : Value) :=
  match v with
  | .Null => true
  | _ => false

/-- Models `HashMap::insert`: replaces the value of an existing key in place,
otherwise appends the new entry. -/
def objInsert : List (String × Value) → String → Value → List (String × Value)
  | [], k, v => [(k, v)]
  | (k', v') :: rest, k, v => if k' = k then (k, v) :: rest else (k', v') :: objInsert rest k v

/-- Models `HashMap::get`. -/
def objGet : List (String × Value) → String → Option Value
  | [], _ => none
  | (k', v') :: rest, k => if k' = k then some v' else objGet rest k

/-- Models src/src/error.rs `enum Error`. -/
inductive Error where
  | Io (msg : String)
  | Eof
  | Syntax (position : Nat) (message : String)
  | ExpectedFound (expected : String) (found : String) (position : Nat)
  | MissingField (field : String)
  | UnknownField (field : String)
  | TypeError (msg : String)
  | Custom (msg : String)
deriving DecidableEq

/-- Models the `Display` impl for Error in src/src/error.rs. -/
def errorDisplay : Error → String
  | .Io msg => "I/O error: " ++ msg
  | .Eof => "Unexpected end of input"
  | .Syntax p m => "Invalid syntax at position " ++ toString p ++ ": " ++ m
  | .ExpectedFound e f p => "Expected " ++ e ++ " but found " ++ f ++ " at position " ++ toString p
  | .MissingField f => "Missing field: " ++ f
  | .UnknownField f => "Unknown field: " ++ f
  | .TypeError m => "Type error: " ++ m
  | .Custom m => "Custom error: " ++ m

/-- A loose model of derive(Debug) formatting of Value, used only to build
TypeError message strings; no theorem asserts the text produced here. -/
def valueDebugShallow : Value → String
  | .Null => "Null"
  | .Bool b => "Bool(" ++ (if b then "true" else "false") ++ ")"
  | .Number n => "Number(" ++ f64Display n ++ ")"
  | .String s => "String(\"" ++ s ++ "\")"
  | .Array _ => "Array(..)"
  | .Object _ => "Object(..)"

/-- Models Rust `char::is_whitespace` (the Unicode White_Space property),
which `Parser::skip_whitespace` calls. -/
def rustIsWhitespace (c : Char) : Bool :=
  c = '\x09' || c = '\x0a' || c = '\x0b' || c = '\x0c' || c = '\x0d' || c = ' ' ||
  c = '\x85' || c = '\xa0' || c = '\u1680' ||
  ('\u2000' ≤ c && c ≤ '\u200a') || c = '\u2028' || c = '\u2029' ||
  c = '\u202f' || c = '\u205f' || c = '\u3000'

/-- Models `char::is_ascii_digit`. -/
def rustIsAsciiDigit (c : Char) : Bool := '0' ≤ c && c ≤ '9'

/-- Models `char::is_ascii_hexdigit`. -/
def rustIsAsciiHexdigit (c : Char) : Bool :=
  ('0' ≤ c && c ≤ '9') || ('a' ≤ c && c ≤ 'f') || ('A' ≤ c && c ≤ 'F')

/-- Models `c.to_digit(16).unwrap()` on an ASCII hex digit. -/
def hexDigitVal (c : Char) : Nat :=
  if '0' ≤ c && c ≤ '9' then c.toNat - '0'.toNat
  else if 'a' ≤ c && c ≤ 'f' then c.toNat - 'a'.toNat + 10
  else if 'A' ≤ c && c ≤ 'F' then c.toNat - 'A'.toNat + 10
  else 0

/-- Models the state of `struct Parser` in src/src/de.rs. `remaining` is the
sequence of characters the CharIndices iterator has not yet yielded; `pos`
models the `pos` field (the byte offset of the start of the most recently
consumed character, 0 initially); `nextPos` is the byte offset of the next
unconsumed character; `last` is the most recently consumed character (so that
the byte suffix `self.input[self.pos..]` can be recovered, see
PState.inputFromPos). -/
structure PState where
  remaining : List Char
  pos : Nat
  nextPos : Nat
  last : Option Char

/-- Models `Parser::new`. -/
def PState.init (s : String) : PState := ⟨s.data, 0, 0, none⟩

/-- Models `Parser::peek` (CharIndices yields byte offsets). -/
def PState.peek (st : PState) : Option (Nat × Char) :=
  match st.remaining with
  | [] => none
  | c :: _ => some (st.nextPos, c)

/-- Models `Parser::next`: consuming c sets `pos` to c's byte offset. -/
def PState.next (st : PState) : Option ((Nat × Char) × PState) :=
  match st.remaining with
  | [] => none
  | c :: rest => some ((st.nextPos, c), ⟨rest, st.nextPos, st.nextPos + c.utf8Size, some c⟩)

/-- The character suffix of the input starting at byte offset `self.pos`.
Because `pos` is the offset of the START of the last consumed character (or 0
when nothing has been consumed), that suffix is the last consumed character
followed by the unconsumed remainder. The keyword checks
`&self.input[self.pos..self.pos+4] == "true"` and
`self.input[current_pos..].starts_with("null")` are equivalent to a prefix
test on this suffix (the byte window at a character boundary matches the
ASCII keyword exactly when the character window does, and a window shorter
than the keyword fails both tests). -/
def PState.inputFromPos (st : PState) : List Char :=
  match st.last with
  | none => st.remaining
  | some c => c :: st.remaining

/-- Models `for _ in 0..n { self.next(); }`. -/
def PState.consumeN : Nat → PState → PState
  | 0, st => st
  | n + 1, st =>
    match st.next with
    | none => PState.consumeN n st
    | some (_, st') => PState.consumeN n st'

/-- Prefix test on character lists. -/
def listStartsWith : List Char → List Char → Bool
  | _, [] => true
  | [], _ :: _ => false
  | c :: cs, d :: ds => c = d && listStartsWith cs ds

/-- Models `Parser::skip_whitespace` (threading the cursor bookkeeping of
`next` through the loop). -/
def skipWhitespaceGo : List Char → Nat → Nat → Option Char → PState
  | [], pos, np, l => ⟨[], pos, np, l⟩
  | c :: rest, pos, np, l =>
    if rustIsWhitespace c then skipWhitespaceGo rest np (np + c.utf8Size) (some c)
    else ⟨c :: rest, pos, np, l⟩

/-- Models `Parser::skip_whitespace`. -/
def skipWhitespace (st : PState) : PState :=
  skipWhitespaceGo st.remaining st.pos st.nextPos st.last

namespace Parser

/-- Models `Parser::parse_true`. Note that the keyword test reads the input
starting at `self.pos`, the offset of the LAST consumed character. -/
def parse_true (st : PState) : Except Error (Value × PState) :=
  if listStartsWith st.inputFromPos "true".data then
    .ok (.Bool true, PState.consumeN 4 st)
  else
    .error (.Syntax st.pos "expected 'true'")

/-- Models `Parser::parse_false`. -/
def parse_false (st : PState) : Except Error (Value × PState) :=
  if listStartsWith st.inputFromPos "false".data then
    .ok (.Bool false, PState.consumeN 5 st)
  else
    .error (.Syntax st.pos "expected 'false'")

/-- Models `Parser::parse_null`. -/
def parse_null (st : PState) : Except Error (Value × PState) :=
  if listStartsWith st.inputFromPos "null".data then
    .ok (.Null, PState.consumeN 4 st)
  else
    .error (.Syntax st.pos "expected 'null'")

end Parser

/-- The replacement characters of the eight simple escape arms of
`Parser::parse_string` (\n \r \t \b \f \" \\ in match order, with the \uXXXX
arm handled separately); none models the catch-all invalid-escape arm. -/
def simpleEscape (c : Char) : Option Char :=
  if c = 'n' then some '\x0a'
  else if c = 'r' then some '\x0d'
  else if c = 't' then some '\x09'
  else if c = 'b' then some '\x08'
  else if c = 'f' then some '\x0c'
  else if c = '"' then some '"'
  else if c = '\\' then some '\\'
  else none

/-- The four-hex-digit loop of the \uXXXX arm of `Parser::parse_string`,
unrolled. Input: the unconsumed characters after 'u' and the byte offset of
the first of them; output: the code point, the characters after the digits,
the byte offset of the fourth digit (the parser's `pos` after consuming it),
the following byte offset, and the fourth digit itself. -/
def readHex4 (l : List Char) (np : Nat) : Except Error (Nat × List Char × Nat × Nat × Char) :=
  match l with
  | [] => .error .Eof
  | d1 :: r1 =>
    if !(rustIsAsciiHexdigit d1) then .error (.Syntax np ("invalid unicode escape: " ++ d1.toString))
    else
      match r1 with
      | [] => .error .Eof
      | d2 :: r2 =>
        if !(rustIsAsciiHexdigit d2) then
          .error (.Syntax (np + d1.utf8Size) ("invalid unicode escape: " ++ d2.toString))
        else
          match r2 with
          | [] => .error .Eof
          | d3 :: r3 =>
            if !(rustIsAsciiHexdigit d3) then
              .error (.Syntax (np + d1.utf8Size + d2.utf8Size) ("invalid unicode escape: " ++ d3.toString))
            else
              match r3 with
              | [] => .error .Eof
              | d4 :: r4 =>
                if !(rustIsAsciiHexdigit d4) then
                  .error (.Syntax (np + d1.utf8Size + d2.utf8Size + d3.utf8Size)
                    ("invalid unicode escape: " ++ d4.toString))
                else
                  .ok (((hexDigitVal d1 * 16 + hexDigitVal d2) * 16 + hexDigitVal d3) * 16 + hexDigitVal d4,
                    r4, np + d1.utf8Size + d2.utf8Size + d3.utf8Size,
                    np + d1.utf8Size + d2.utf8Size + d3.utf8Size + d4.utf8Size, d4)

namespace Parser

/-- Models the character loop of `Parser::parse_string`. The arguments after
the fuel mirror the unconsumed characters and the cursor fields (pos,
nextPos, last) and the loop state (accumulated string, `escaped` flag); the
guards group the Rust arms by their `escaped` flag but test the same
disjoint conditions. The Nat fuel makes the recursion structural; every
iteration consumes at least one character, so the fuel supplied by
parse_string (length + 1) is never exhausted. -/
def parseStringLoop : Nat → List Char → Nat → Nat → Option Char → String → Bool →
    Except Error (Value × PState)
  | 0, _, _, _, _, _, _ => .error .Eof
  | _ + 1, [], _, _, _, _, _ => .error .Eof
  | fuel + 1, c :: rest, _, np, _, acc, escaped =>
    let np' := np + c.utf8Size
    if !escaped && c = '"' then .ok (.String acc, ⟨rest, np, np', some c⟩)
    else if !escaped && c = '\\' then parseStringLoop fuel rest np np' (some c) acc true
    else if escaped && c = 'u' then
      match readHex4 rest np' with
      | .error e => .error e
      | .ok (code_point, r4, p3, p4, d4) =>
        -- std::char::from_u32 returns None exactly on the surrogate range
        -- here (code_point ≤ 0xFFFF)
        if 0xD800 ≤ code_point && code_point ≤ 0xDFFF then
          .error (.Syntax p3 "invalid unicode code point")
        else
          parseStringLoop fuel r4 p3 p4 (some d4) (acc.push (Char.ofNat code_point)) false
    else if escaped then
      match simpleEscape c with
      | some ch => parseStringLoop fuel rest np np' (some c) (acc.push ch) false
      | none => .error (.Syntax np ("invalid escape: \\" ++ c.toString))
    else parseStringLoop fuel rest np np' (some c) (acc.push c) false

/-- Models `Parser::parse_string`: skip the opening quote, then run the loop. -/
def parse_string (st : PState) : Except Error (Value × PState) :=
  let st1 := match st.next with
    | some (_, st') => st'
    | none => st
  parseStringLoop (st1.remaining.length + 1) st1.remaining st1.pos st1.nextPos st1.last "" false

end Parser

/-- Models `self.next()` with the yielded character discarded. -/
def PState.advance1 (st : PState) : PState :=
  match st.next with
  | some (_, st') => st'
  | none => st

/-- Models the `while let Some((_, c)) = self.peek() { if !c.is_ascii_digit()
\x7b break \x7d ... self.next(); }` digit-scanning loops of
`Parser::parse_number`: returns the scanned digits and the advanced cursor. -/
def scanDigitsGo : List Char → Nat → Nat → Option Char → (List Char × PState)
  | [], pos, np, l => ([], ⟨[], pos, np, l⟩)
  | c :: rest, pos, np, l =>
    if rustIsAsciiDigit c then
      let r := scanDigitsGo rest np (np + c.utf8Size) (some c)
      (c :: r.1, r.2)
    else ([], ⟨c :: rest, pos, np, l⟩)

/-- Digit scan, packaged on the parser state. -/
def scanDigits (st : PState) : List Char × PState :=
  scanDigitsGo st.remaining st.pos st.nextPos st.last

/-- Numeric value of a digit string (accumulator form). -/
def digitsToNat : List Char → Nat → Nat
  | [], acc => acc
  | c :: cs, acc => digitsToNat cs (acc * 10 + (c.toNat - '0'.toNat))

/-- Models `number_str.parse::<f64>()` on the number string assembled by
`Parser::parse_number`, from its grammar components (sign, integer digits,
fraction digits, exponent sign and digits). The exact decimal value is kept;
a magnitude at or above the IEEE-754 overflow threshold converts to the
corresponding infinity, exactly as Rust's string-to-float conversion does.
(The conversion's Err branch is unreachable on grammar-built strings, and
rounding to the nearest binary64 is not modelled; every finite number any
theorem inspects is exactly representable.) -/
def rustStrToF64 (neg : Bool) (intDigits fracDigits : List Char)
    (expNeg : Bool) (expDigits : List Char) : F64 :=
  let mNat : Nat := digitsToNat intDigits 0 * pow10 fracDigits.length + digitsToNat fracDigits 0
  let expv : Nat := digitsToNat expDigits 0
  let e : Int := (if expNeg then -(expv : Int) else (expv : Int)) - fracDigits.length
  let overflow : Bool :=
    if 0 ≤ e then decide (f64OverflowThreshold ≤ mNat * pow10 e.toNat)
    else decide (f64OverflowThreshold * pow10 (-e).toNat ≤ mNat)
  if overflow then (if neg then .neginf else .inf)
  else .fin (if neg then -(mNat : Int) else (mNat : Int)) e

namespace Parser

/-- Models `Parser::parse_number`. -/
def parse_number (st : PState) : Except Error (Value × PState) :=
  let start_pos := st.pos
  -- optional negative sign
  let signRes : Bool × PState :=
    match st.peek with
    | some (_, '-') => (true, st.advance1)
    | _ => (false, st)
  let neg := signRes.1
  let st := signRes.2
  -- integer part: a leading '0' is taken alone; otherwise a digit scan
  let intRes : List Char × PState :=
    match st.peek with
    | some (_, '0') => (['0'], st.advance1)
    | _ => scanDigits st
  let intDigits := intRes.1
  let st := intRes.2
  if intDigits.isEmpty then .error (.Syntax start_pos "expected digit")
  else
    -- optional fractional part
    let fracRes : Except Error (List Char × PState) :=
      match st.peek with
      | some (_, '.') =>
        let r := scanDigits st.advance1
        if r.1.isEmpty then .error (.Syntax r.2.pos "expected digit after decimal point")
        else .ok (r.1, r.2)
      | _ => .ok ([], st)
    match fracRes with
    | .error e => .error e
    | .ok (fracDigits, st) =>
      -- optional exponent
      let expRes : Except Error ((Bool × List Char) × PState) :=
        match st.peek with
        | some (_, c) =>
          if c = 'e' || c = 'E' then
            let st1 := st.advance1
            let signRes2 : Bool × PState :=
              match st1.peek with
              | some (_, s) => if s = '+' || s = '-' then (s = '-', st1.advance1) else (false, st1)
              | none => (false, st1)
            let r := scanDigits signRes2.2
            if r.1.isEmpty then .error (.Syntax r.2.pos "expected digit in exponent")
            else .ok ((signRes2.1, r.1), r.2)
          else .ok ((false, []), st)
        | none => .ok ((false, []), st)
      match expRes with
      | .error e => .error e
      | .ok ((expNeg, expDigits), st) =>
        .ok (.Number (rustStrToF64 neg intDigits fracDigits expNeg expDigits), st)

mutual

/-- Models `Parser::parse_value`. The Nat argument is recursion fuel: every
recursive call in this mutual block decrements it by one and consumes at
least one input character before recursing, so the top-level fuel of
`parse` (3 * input length + 9) is never exhausted; the fuel-out branch is
unreachable from `parse`. -/
def parse_value : Nat → PState → Except Error (Value × PState)
  | 0, _ => .error .Eof
  | fuel + 1, st =>
    let st := skipWhitespace st
    match st.peek with
    | none => .error .Eof
    | some (pos, c) =>
      if c = 'n' then parse_null st
      else if c = 't' then parse_true st
      else if c = 'f' then parse_false st
      else if c = '"' then parse_string st
      else if c = '[' then
        -- the special array handling: a failed parse_array is re-wrapped
        -- with the Display form of the inner diagnostic
        match parse_array fuel st with
        | .error err => .error (.Syntax pos ("Failed to parse array: " ++ errorDisplay err))
        | .ok r => .ok r
      else if c = '\x7b' then parse_object fuel st
      else if c = '-' || rustIsAsciiDigit c then parse_number st
      else .error (.Syntax pos ("unexpected character: " ++ c.toString))

/-- Models `Parser::parse_array` up to the loop over the remaining items. -/
def parse_array : Nat → PState → Except Error (Value × PState)
  | 0, _ => .error .Eof
  | fuel + 1, st =>
    let st := skipWhitespace st.advance1
    match st.peek with
    | some (_, ']') => .ok (.Array [], st.advance1)
    | _ =>
      match parse_value fuel st with
      | .error e => .error e
      | .ok (v, st) => parse_array_loop fuel [v] (skipWhitespace st)

/-- Models the `loop` over the remaining items of `Parser::parse_array`. -/
def parse_array_loop : Nat → List Value → PState → Except Error (Value × PState)
  | 0, _, _ => .error .Eof
  | fuel + 1, items, st =>
    match st.peek with
    | some (_, ',') =>
      let st := skipWhitespace st.advance1
      match st.peek with
      | some (pos, ']') => .error (.Syntax pos "trailing comma in array is not allowed in JSON")
      | _ =>
        match parse_value fuel st with
        | .error e => .error e
        | .ok (v, st) => parse_array_loop fuel (items ++ [v]) (skipWhitespace st)
    | some (_, ']') => .ok (.Array items, st.advance1)
    | some (pos, c) => .error (.ExpectedFound "',' or ']'" c.toString pos)
    | none => .error .Eof

/-- Models `Parser::parse_object` up to the loop over the remaining pairs. -/
def parse_object : Nat → PState → Except Error (Value × PState)
  | 0, _ => .error .Eof
  | fuel + 1, st =>
    let st := skipWhitespace st.advance1
    match st.peek with
    | some (_, '\x7d') => .ok (.Object [], st.advance1)
    | some (_, '"') =>
      match parse_string st with
      | .error e => .error e
      | .ok (.String key, st) =>
        let st := skipWhitespace st
        match st.peek with
        | some (_, ':') =>
          let st := skipWhitespace st.advance1
          match parse_value fuel st with
          | .error e => .error e
          | .ok (v, st) => parse_object_loop fuel (objInsert [] key v) (skipWhitespace st)
        | some (pos, c) => .error (.ExpectedFound "':'" c.toString pos)
        | none => .error .Eof
      | .ok (_, _) => .error (.Custom "unreachable: parse_string returned a non-string")
    | some (pos, c) => .error (.ExpectedFound "'\"' or '\x7d'" c.toString pos)
    | none => .error .Eof

/-- Models the `loop` over the remaining pairs of `Parser::parse_object`. -/
def parse_object_loop : Nat → List (String × Value) → PState → Except Error (Value × PState)
  | 0, _, _ => .error .Eof
  | fuel + 1, map, st =>
    match st.peek with
    | some (_, ',') =>
      let st := skipWhitespace st.advance1
      match st.peek with
      | some (pos, '\x7d') => .error (.Syntax pos "trailing comma in object is not allowed in JSON")
      | some (_, '"') =>
        match parse_string st with
        | .error e => .error e
        | .ok (.String key, st) =>
          let st := skipWhitespace st
          match st.peek with
          | some (_, ':') =>
            let st := skipWhitespace st.advance1
            match parse_value fuel st with
            | .error e => .error e
            | .ok (v, st) => parse_object_loop fuel (objInsert map key v) (skipWhitespace st)
          | some (pos, c) => .error (.ExpectedFound "':'" c.toString pos)
          | none => .error .Eof
        | .ok (_, _) => .error (.Custom "unreachable: parse_string returned a non-string")
      | some (pos, c) => .error (.ExpectedFound "'\"'" c.toString pos)
      | none => .error .Eof
    | some (_, '\x7d') => .ok (.Object map, st.advance1)
    | some (pos, c) => .error (.ExpectedFound "',' or '\x7d'" c.toString pos)
    | none => .error .Eof

end

/-- Models `Parser::parse`: skip whitespace, then parse a value. -/
def parse (fuel : Nat) (st : PState) : Except Error (Value × PState) :=
  parse_value fuel (skipWhitespace st)

end Parser

/-- Fuel supplied to the recursive parser by the top-level `parse`; amply
sufficient, as every level of recursion first consumes input (see
`Parser.parse_value`). -/
def parserFuel (json : String) : Nat := 3 * json.data.length + 9

/-- Models the top-level `parse` of src/src/de.rs: parse one value, then
require that only whitespace remains; a leftover non-whitespace character is
a positioned Syntax diagnostic. -/
def parse (json : String) : Except Error Value :=
  match Parser.parse (parserFuel json) (PState.init json) with
  | .error e => .error e
  | .ok (value, st) =>
    let st := skipWhitespace st
    match st.peek with
    | some (pos, c) => .error (.Syntax pos ("trailing character '" ++ c.toString ++ "' after JSON value"))
    | none => .ok value

/-! Serialize bodies of src/src/ser.rs (the carriers the claims touch).
Signed 64-bit integers are modelled on Int, unsigned ones on Nat; the `as
f64` conversion is F64.ofInt (exact on every value a theorem converts). -/

namespace Serialize

/-- Models `impl Serialize for bool`. -/
def bool (b : Bool) : Except Error Value := .ok (.Bool b)

/-- Models `impl Serialize for String`. -/
def string (s : String) : Except Error Value := .ok (.String s)

/-- Models `impl Serialize for u32`. -/
def u32 (x : Nat) : Except Error Value := .ok (.Number (F64.ofInt x))

/-- Models `impl Serialize for i64`: the source converts unconditionally,
with no magnitude check. -/
def i64 (x : Int) : Except Error Value := .ok (.Number (F64.ofInt x))

/-- Models `impl Serialize for u64`, which rejects values above 2^53 - 1. -/
def u64 (x : Nat) : Except Error Value :=
  if x > 9007199254740991 then .error (.Custom ("integer too large for JSON: " ++ toString x))
  else .ok (.Number (F64.ofInt x))

/-- Models `impl Serialize for f32`: `Ok(Value::Number(*self as f64))`, with
no finiteness check; the f32-to-f64 widening is exact, so the payload passes
through. -/
def f32 (x : F64) : Except Error Value := .ok (.Number x)

/-- Models `impl Serialize for f64`, which rejects non-finite values. -/
def f64 (x : F64) : Except Error Value :=
  if x.isFinite then .ok (.Number x)
  else .error (.Custom ("non-finite number cannot be serialized: " ++ f64Display x))

/-- Models `impl Serialize for Option<T>` over a serializer for T. -/
def option (ser : α → Except Error Value) : Option α → Except Error Value
  | some v => ser v
  | none => .ok .Null

end Serialize

/-! Deserialize bodies of src/src/de.rs (the carriers the claims touch). -/

namespace Deserialize

/-- Models `impl Deserialize for bool`. -/
def bool (value : Value) : Except Error Bool :=
  match value with
  | .Bool b => .ok b
  | v => .error (.TypeError ("expected boolean, found " ++ valueDebugShallow v))

/-- Models `impl Deserialize for String`. -/
def string (value : Value) : Except Error String :=
  match value with
  | .String s => .ok s
  | v => .error (.TypeError ("expected string, found " ++ valueDebugShallow v))

/-- Models `impl Deserialize for u32`: requires a Number with zero fractional
part within [0, u32::MAX]. -/
def u32 (value : Value) : Except Error Nat :=
  match value with
  | .Number n =>
    if n.fractNeZero then .error (.TypeError ("expected integer, found float " ++ f64Display n))
    else if n.ltInt 0 || n.gtInt 4294967295 then
      .error (.TypeError ("value " ++ f64Display n ++ " out of range for u32"))
    else .ok n.toIntVal.toNat
  | v => .error (.TypeError ("expected number, found " ++ valueDebugShallow v))

/-- Models `impl Deserialize for i64`: requires a Number with zero fractional
part whose magnitude is at most 2^53 - 1. -/
def i64 (value : Value) : Except Error Int :=
  match value with
  | .Number n =>
    if n.fractNeZero then .error (.TypeError ("expected integer, found float " ++ f64Display n))
    else if n.ltInt (-9007199254740991) || n.gtInt 9007199254740991 then
      .error (.TypeError ("value " ++ f64Display n ++ " may not be precisely representable as i64"))
    else .ok n.toIntVal
  | v => .error (.TypeError ("expected number, found " ++ valueDebugShallow v))

/-- Models `impl Deserialize for u64`: requires a Number with zero fractional
part, non-negative and at most 2^53 - 1. -/
def u64 (value : Value) : Except Error Nat :=
  match value with
  | .Number n =>
    if n.fractNeZero then .error (.TypeError ("expected integer, found float " ++ f64Display n))
    else if n.ltInt 0 then .error (.TypeError ("value " ++ f64Display n ++ " out of range for u64"))
    else if n.gtInt 9007199254740991 then
      .error (.TypeError ("value " ++ f64Display n ++ " may not be precisely representable as u64"))
    else .ok n.toIntVal.toNat
  | v => .error (.TypeError ("expected number, found " ++ valueDebugShallow v))

end Deserialize

/-! The emitters: the compact Display impl of src/src/value.rs and the
pretty printer of src/src/ser.rs. -/

/-- Models the escape mapping of `escape_string` in src/src/value.rs (the
pretty printer of src/src/ser.rs re-implements the identical mapping). -/
def escapeChar (c : Char) : String :=
  if c = '"' then "\\\""
  else if c = '\\' then "\\\\"
  else if c = '\x0a' then "\\n"
  else if c = '\x0d' then "\\r"
  else if c = '\x09' then "\\t"
  else if c = '\x08' then "\\b"
  else if c = '\x0c' then "\\f"
  else c.toString

/-- Character-list form of `escape_string`. -/
def escapeStringGo : List Char → String
  | [] => ""
  | c :: rest => escapeChar c ++ escapeStringGo rest

/-- Models `escape_string` of src/src/value.rs. -/
def escape_string (s : String) : String := escapeStringGo s.data

mutual

/-- Models the compact `Display` impl for Value in src/src/value.rs (what
`to_string` emits). Number formatting follows f64Display; Object entries are
written in the model's deterministic entry order (HashMap iteration order is
unspecified in the source). -/
def emitCompact : Value → String
  | .Null => "null"
  | .Bool b => if b then "true" else "false"
  | .Number n => f64Display n
  | .String s => "\"" ++ escape_string s ++ "\""
  | .Array a => "[" ++ emitCompactItems a ++ "]"
  | .Object o => "\x7b" ++ emitCompactEntries o ++ "\x7d"

/-- The `", "`-separated item list of a compact array. -/
def emitCompactItems : List Value → String
  | [] => ""
  | [v] => emitCompact v
  | v :: vs => emitCompact v ++ ", " ++ emitCompactItems vs

/-- The `", "`-separated key-value list of a compact object. -/
def emitCompactEntries : List (String × Value) → String
  | [] => ""
  | [(k, v)] => "\"" ++ escape_string k ++ "\": " ++ emitCompact v
  | (k, v) :: rest => "\"" ++ escape_string k ++ "\": " ++ emitCompact v ++ ", " ++ emitCompactEntries rest

end

/-- Models `" ".repeat(n)` for indentation. -/
def spacesRep (n : Nat) : String := String.mk (List.replicate n ' ')

mutual

/-- Models `pretty_print` of src/src/ser.rs (two-space indentation, one item
per line, empty containers compact; the Result is faithful to the source
signature even though no branch produces an error). The string escaping
inlined there is the same mapping as escape_string. -/
def pretty_print (value : Value) (indent : Nat) : Except Error String :=
  match value with
  | .Null => .ok "null"
  | .Bool b => .ok (if b then "true" else "false")
  | .Number n => .ok (f64Display n)
  | .String s => .ok ("\"" ++ escape_string s ++ "\"")
  | .Array a =>
    match a with
    | [] => .ok "[]"
    | _ =>
      match prettyItems a (indent + 2) with
      | .error e => .error e
      | .ok mid => .ok ("[\x0a" ++ mid ++ spacesRep indent ++ "]")
  | .Object o =>
    match o with
    | [] => .ok "\x7b\x7d"
    | _ =>
      match prettyEntries o (indent + 2) with
      | .error e => .error e
      | .ok mid => .ok ("\x7b\x0a" ++ mid ++ spacesRep indent ++ "\x7d")

/-- The item lines of a pretty-printed array: every item on its own indented
line, a comma after each item but the last. -/
def prettyItems : List Value → Nat → Except Error String
  | [], _ => .ok ""
  | [v], ind =>
    match pretty_print v ind with
    | .error e => .error e
    | .ok s => .ok (spacesRep ind ++ s ++ "\x0a")
  | v :: rest, ind =>
    match pretty_print v ind with
    | .error e => .error e
    | .ok s =>
      match prettyItems rest ind with
      | .error e => .error e
      | .ok t => .ok (spacesRep ind ++ s ++ ",\x0a" ++ t)

/-- The entry lines of a pretty-printed object. -/
def prettyEntries : List (String × Value) → Nat → Except Error String
  | [], _ => .ok ""
  | [(k, v)], ind =>
    match pretty_print v ind with
    | .error e => .error e
    | .ok s => .ok (spacesRep ind ++ "\"" ++ k ++ "\": " ++ s ++ "\x0a")
  | (k, v) :: rest, ind =>
    match pretty_print v ind with
    | .error e => .error e
    | .ok s =>
      match prettyEntries rest ind with
      | .error e => .error e
      | .ok t => .ok (spacesRep ind ++ "\"" ++ k ++ "\": " ++ s ++ ",\x0a" ++ t)

end

/-- Models `to_string` applied to a Value (`impl Serialize for Value` is the
identity, then the Display impl renders it): the compact emission. -/
def to_string (v : Value) : Except Error String := .ok (emitCompact v)

/-- Models `to_string_pretty` applied to a Value. -/
def to_string_pretty (v : Value) : Except Error String := pretty_print v 0

/-! The code-generator output. fastjson-derive/src/lib.rs turns a record or
tagged-union declaration into encoder/decoder bodies; the two declarations
below are the ones the repository itself declares (src/tests/lib.rs, also
scenario 2 and 4 of the specification): the record Person, whose email field
carries rename = "emailAddress" and whose _internal_id field carries skip,
and the tagged union Status with unit, positional and named variants. The
definitions Person.serialize, Person.deserialize, Status.serialize and
Status.deserialize transcribe exactly the bodies generate_struct_serialize,
generate_struct_deserialize, generate_enum_serialize and
generate_enum_deserialize emit for them. -/

/-- The Person record of src/tests/lib.rs: name: String, age: u32,
is_active: bool, email: Option<String> renamed to "emailAddress",
_internal_id: Option<u64> with the skip directive. -/
structure Person where
  name : String
  age : Nat
  is_active : Bool
  email : Option String
  _internal_id : Option Nat
deriving DecidableEq

/-- The encoder generate_struct_serialize emits for Person: build a map,
insert one wire-named entry per non-skip field (the skip field _internal_id
is omitted), return it as an Object. -/
def Person.serialize (p : Person) : Except Error Value := do
  let map : List (String × Value) := []
  let v ← Serialize.string p.name
  let map := objInsert map "name" v
  let v ← Serialize.u32 p.age
  let map := objInsert map "age" v
  let v ← Serialize.bool p.is_active
  let map := objInsert map "is_active" v
  let v ← Serialize.option Serialize.string p.email
  let map := objInsert map "emailAddress" v
  .ok (.Object map)

/-- The decoder generate_struct_deserialize emits for Person: require an
Object; a non-optional field is decoded from its wire key and its absence is
a MissingField diagnostic; an optional field maps an absent key or an
explicit Null to None and anything else to Some(decode); a skip field gets
Default::default(). -/
def Person.deserialize (value : Value) : Except Error Person :=
  match value with
  | .Object map => do
    let name ← match objGet map "name" with
      | some v => Deserialize.string v
      | none => .error (.MissingField "name")
    let age ← match objGet map "age" with
      | some v => Deserialize.u32 v
      | none => .error (.MissingField "age")
    let is_active ← match objGet map "is_active" with
      | some v => Deserialize.bool v
      | none => .error (.MissingField "is_active")
    let email ← match objGet map "emailAddress" with
      | some v =>
        if v.is_null then pure none
        else do
          let s ← Deserialize.string v
          pure (some s)
      | none => pure (none : Option String)
    let _internal_id : Option Nat := none
    pure { name, age, is_active, email, _internal_id }
  | v => .error (.TypeError ("expected object, found " ++ valueDebugShallow v))

/-- The Status tagged union of src/tests/lib.rs: unit variants Active and
Inactive, the positional variant Pending(String) of arity 1, and the named
variant Custom { code: u32, message: String }. -/
inductive Status where
  | Active
  | Inactive
  | Pending (value : String)
  | Custom (code : Nat) (message : String)
deriving DecidableEq

/-- The encoder generate_enum_serialize emits for Status: a unit variant
becomes the bare String of its wire name; the positional variant becomes an
Object with "type" and a "data" Array of its encoded elements; the named
variant becomes an Object with "type" plus one wire-named entry per field. -/
def Status.serialize (s : Status) : Except Error Value :=
  match s with
  | .Active => .ok (.String "Active")
  | .Inactive => .ok (.String "Inactive")
  | .Pending value => do
    let d ← Serialize.string value
    let map := objInsert (objInsert [] "type" (.String "Pending")) "data" (.Array [d])
    .ok (.Object map)
  | .Custom code message => do
    let c ← Serialize.u32 code
    let m ← Serialize.string message
    let map := objInsert (objInsert (objInsert [] "type" (.String "Custom")) "code" c) "message" m
    .ok (.Object map)

/-- The decoder generate_enum_deserialize emits for Status. A String input
selects a unit variant by wire name (unknown names are a TypeError). An
Object input requires a String-valued "type" key (else MissingField("type"))
and dispatches on it: "Pending" requires a "data" Array of exactly one
element (a wrong arity or a non-Array "data" is a TypeError); "Custom"
decodes its two named fields by the record rules; an unknown tag is a
TypeError. Any other input shape is a TypeError. (The source checks
`arr.len() != 1` before indexing `arr[0]`; the singleton pattern below is
that same test.) -/
def Status.deserialize (value : Value) : Except Error Status :=
  match value with
  | .String s =>
    if s = "Active" then .ok .Active
    else if s = "Inactive" then .ok .Inactive
    else .error (.TypeError ("unknown enum variant: " ++ s))
  | .Object map =>
    match objGet map "type" with
    | some (.String t) =>
      if t = "Pending" then
        match objGet map "data" with
        | some (.Array [x]) => do
          let v ← Deserialize.string x
          .ok (.Pending v)
        | some (.Array arr) =>
          .error (.TypeError ("expected array with 1 element(s), found array with " ++
            toString arr.length ++ " elements"))
        | _ => .error (.TypeError "expected array for enum variant data")
      else if t = "Custom" then do
        let code ← match objGet map "code" with
          | some v => Deserialize.u32 v
          | none => .error (.MissingField "code")
        let message ← match objGet map "message" with
          | some v => Deserialize.string v
          | none => .error (.MissingField "message")
        .ok (.Custom code message)
      else .error (.TypeError ("unknown enum variant type: " ++ t))
    | _ => .error (.MissingField "type")
  | v => .error (.TypeError ("expected string or object for enum, found " ++ valueDebugShallow v))

/-- Total UTF-8 byte length of a character sequence (str::len on the
corresponding Rust string slice). -/
def utf8Len : List Char → Nat
  | [] => 0
  | c :: cs => c.utf8Size + utf8Len cs

/-- decode(encode(p)) for the Person record: the composition whose identity
the round-trip property of the specification asserts. -/
def personRoundtrip (p : Person) : Except Error Person :=
  match p.serialize with
  | .ok v => Person.deserialize v
  | .error e => .error e

/-- decode(encode(s)) for the Status tagged union. -/
def statusRoundtrip (s : Status) : Except Error Status :=
  match s.serialize with
  | .ok v => Status.deserialize v
  | .error e => .error e

/-- The in-range side condition under which a Status instance's u32 carrier
round-trips (the host type u32 guarantees it; the Nat model states it). -/
def statusWf : Status → Prop
  | .Custom code _ => code ≤ 4294967295
  | _ => True

/-! Theorems. Shared helper lemmas first, then one theorem per claim. -/

/-- Skipping whitespace drops exactly the leading whitespace characters of
the unconsumed input. -/
theorem skipWhitespaceGo_remaining (l : List Char) :
    ∀ pos np last, (skipWhitespaceGo l pos np last).remaining = l.dropWhile rustIsWhitespace := by
  induction l with
  | nil => intro pos np last; rfl
  | cons c rest ih =>
    intro pos np last
    by_cases h : rustIsWhitespace c = true
    · simp [skipWhitespaceGo, h, List.dropWhile, ih]
    · simp [skipWhitespaceGo, h, List.dropWhile]

/-- Deserializing a u32-range natural number stored as an exact integer
Number succeeds with that number. -/
theorem u32_deserialize_natCast (ag : Nat) (h : ag ≤ 4294967295) :
    Deserialize.u32 (.Number (.fin (ag : Int) 0)) = .ok ag := by
  unfold Deserialize.u32 F64.fractNeZero F64.ltInt F64.gtInt F64.toIntVal pow10
  have h0 : ¬ ((ag : Int) * (Nat.pow 10 (0 : Int).toNat : Int) < 0) := by simp
  have h1 : ¬ ((4294967295 : Int) < (ag : Int) * (Nat.pow 10 (0 : Int).toNat : Int)) := by
    simp; omega
  simp [h0, h1]
  omega

/-- C1: for every Value v containing only finite Numbers, parsing the compact
emission and parsing the pretty emission of v each yield v again (with Object
equality order-independent). The code violates this: for v = Array [Bool
true], both emissions are correct JSON text, but parsing either returns a
Syntax diagnostic instead of v, because the keyword parsers read the input
starting at the offset of the LAST consumed character (Parser.pos), which
sits one character before the keyword whenever anything was consumed
earlier. -/
theorem c1_roundtrip_fails_on_keywords :
    to_string (Value.Array [Value.Bool true]) = .ok "[true]" ∧
    to_string_pretty (Value.Array [Value.Bool true]) = .ok "[\x0a  true\x0a]" ∧
    parse "[true]" =
      .error (.Syntax 0 "Failed to parse array: Invalid syntax at position 0: expected 'true'") ∧
    parse "[\x0a  true\x0a]" =
      .error (.Syntax 0 "Failed to parse array: Invalid syntax at position 3: expected 'true'") :=
  ⟨rfl, rfl, rfl, rfl⟩

/-- C3: the claim says a keyword preceded by a grammar-allowed character
(leading whitespace, or an enclosing array/object) parses to its value, e.g.
parse(" true") = Bool(true), parse("[null]") = Array([Null]). The code
rejects every such input (and accepts the keywords only at the very start of
the input): the keyword window starts at the stale Parser.pos of the last
consumed character. -/
theorem c3_keyword_after_prefix_rejected :
    parse "true" = .ok (Value.Bool true) ∧
    parse "null" = .ok Value.Null ∧
    parse " true" = .error (.Syntax 0 "expected 'true'") ∧
    parse " false" = .error (.Syntax 0 "expected 'false'") ∧
    parse "[null]" =
      .error (.Syntax 0 "Failed to parse array: Invalid syntax at position 0: expected 'null'") :=
  ⟨rfl, rfl, rfl, rfl, rfl⟩

/-- C4: the claim says the parser rejects numeric literals that overflow to
infinity and that both floating-point encoders reject non-finite inputs. The
code violates both parts: parse_number never checks finiteness, so "1e999"
parses to Number(+inf) (Rust's str::parse::<f64> returns Ok(inf) on
overflow), and the f32 encoder converts unconditionally, so an infinite f32
encodes to Number(inf). Only the f64 encoder performs the documented
check. -/
theorem c4_nonfinite_numbers_produced :
    parse "1e999" = .ok (Value.Number F64.inf) ∧
    parse "-1e999" = .ok (Value.Number F64.neginf) ∧
    Serialize.f32 F64.inf = .ok (Value.Number F64.inf) ∧
    Serialize.f64 F64.inf = .error (.Custom "non-finite number cannot be serialized: inf") :=
  ⟨rfl, rfl, rfl, rfl⟩

/-- C5: the claim says BOTH 64-bit integer carriers reject magnitudes above
2^53 - 1 on encode. The u64 encoder and both decoders do; the i64 encoder
does not: it converts unconditionally, so encoding the i64 value 2^53 =
9007199254740992 succeeds with a Number instead of failing. -/
theorem c5_i64_encode_missing_range_check :
    Serialize.i64 9007199254740992 = .ok (Value.Number (F64.fin 9007199254740992 0)) ∧
    Serialize.u64 9007199254740992 =
      .error (.Custom "integer too large for JSON: 9007199254740992") ∧
    Deserialize.i64 (Value.Number (F64.fin 9007199254740992 0)) =
      .error (.TypeError "value 9007199254740992 may not be precisely representable as i64") ∧
    Deserialize.i64 (Value.Number (F64.fin (-9007199254740992) 0)) =
      .error (.TypeError "value -9007199254740992 may not be precisely representable as i64") ∧
    Deserialize.u64 (Value.Number (F64.fin 9007199254740992 0)) =
      .error (.TypeError "value 9007199254740992 may not be precisely representable as u64") ∧
    Deserialize.i64 (Value.Number (F64.fin 9007199254740991 0)) = .ok 9007199254740991 :=
  ⟨rfl, rfl, rfl, rfl, rfl, rfl⟩

/-- C6 counterexample: the claim says the escape \/ decodes to '/'; the
parser instead reports it as an invalid escape ('/' is absent from the match
arms of parse_string), so parsing the four-character literal "\/" fails. -/
theorem c6_slash_escape_rejected :
    parse "\"\\/\"" = .error (.Syntax 2 "invalid escape: \\/") := rfl

/-- C6 (amended): inside a string literal the parser accepts exactly the
backslash escapes \", \\, \n, \r, \t, \b, \f and \uXXXX; every other
escaped character — including '/' — produces a positioned Syntax
diagnostic. -/
theorem c6_escape_set_amended :
    (∀ c : Char, c ∉ (['"', '\\', 'n', 'r', 't', 'b', 'f', 'u'] : List Char) →
      parse (String.mk ['"', '\\', c, '"']) =
        .error (.Syntax 2 ("invalid escape: \\" ++ c.toString))) ∧
    parse "\"\\n\"" = .ok (Value.String "\x0a") ∧
    parse "\"\\r\"" = .ok (Value.String "\x0d") ∧
    parse "\"\\t\"" = .ok (Value.String "\x09") ∧
    parse "\"\\b\"" = .ok (Value.String "\x08") ∧
    parse "\"\\f\"" = .ok (Value.String "\x0c") ∧
    parse "\"\\\"\"" = .ok (Value.String "\"") ∧
    parse "\"\\\\\"" = .ok (Value.String "\\") ∧
    parse "\"\\u0041\"" = .ok (Value.String "A") := by
  refine ⟨?_, rfl, rfl, rfl, rfl, rfl, rfl, rfl, rfl⟩
  intro c hc
  simp only [List.mem_cons, List.not_mem_nil, or_false, not_or] at hc
  obtain ⟨hq, hbs, hn, hr, ht, hb, hf, hu⟩ := hc
  have key : Parser.parse (parserFuel (String.mk ['"', '\\', c, '"']))
        (PState.init (String.mk ['"', '\\', c, '"'])) =
      Parser.parseStringLoop 3 [c, '"'] 1 2 (some '\\') "" true := rfl
  have loopEq : Parser.parseStringLoop 3 [c, '"'] 1 2 (some '\\') "" true =
      .error (.Syntax 2 ("invalid escape: \\" ++ c.toString)) := by
    simp only [Parser.parseStringLoop, simpleEscape, decide_eq_false hq, decide_eq_false hbs,
      decide_eq_false hn, decide_eq_false hr, decide_eq_false ht, decide_eq_false hb,
      decide_eq_false hf, decide_eq_false hu, hq, hbs, hn, hr, ht, hb, hf, hu,
      Bool.not_true, Bool.false_and, Bool.true_and, decide_False,
      Bool.false_eq_true, if_false, ite_false, if_true, ite_true]
  simp [parse, key, loopEq]

/-- C6 witness: the amended theorem applied at the concrete character '/'. -/
theorem c6_escape_set_amended_witness :
    ('/' ∉ (['"', '\\', 'n', 'r', 't', 'b', 'f', 'u'] : List Char)) ∧
    parse (String.mk ['"', '\\', '/', '"']) =
      .error (.Syntax 2 ("invalid escape: \\" ++ '/'.toString)) :=
  ⟨by decide, c6_escape_set_amended.1 '/' (by decide)⟩

/-- C9: after the outer JSON value only whitespace may follow. Whenever the
inner parser succeeds, the wrapper returns the value if skipping whitespace
exhausts the rest of the input, and otherwise a Syntax diagnostic carrying
the byte position of the next (first non-whitespace) character; skipping
whitespace drops exactly the maximal leading whitespace prefix of the
unconsumed input. Concretely, parse("  42  ") = Number(42.0) and
parse("42 x") is a Syntax diagnostic at position 3. -/
theorem c9_trailing_whitespace_only :
    (∀ s v st, Parser.parse (parserFuel s) (PState.init s) = .ok (v, st) →
      ((skipWhitespace st).remaining = [] → parse s = .ok v) ∧
      (∀ pos c, (skipWhitespace st).peek = some (pos, c) →
        parse s = .error (.Syntax pos ("trailing character '" ++ c.toString ++ "' after JSON value")))) ∧
    (∀ st, (skipWhitespace st).remaining = st.remaining.dropWhile rustIsWhitespace) ∧
    parse "  42  " = .ok (Value.Number (F64.fin 42 0)) ∧
    parse "42 x" = .error (.Syntax 3 "trailing character 'x' after JSON value") := by
  refine ⟨?_, ?_, rfl, rfl⟩
  · intro s v st h
    constructor
    · intro hrem
      unfold parse
      rw [h]
      simp [PState.peek, hrem]
    · intro pos c hpeek
      unfold parse
      rw [h]
      simp [hpeek]
  · intro st
    exact skipWhitespaceGo_remaining st.remaining st.pos st.nextPos st.last

/-- C9 witness: the wrapper clause of the theorem applied to the concrete
input "42 x", whose inner parse succeeds leaving " x" unconsumed. -/
theorem c9_trailing_whitespace_only_witness :
    Parser.parse (parserFuel "42 x") (PState.init "42 x") =
      .ok (Value.Number (F64.fin 42 0), ⟨[' ', 'x'], 1, 2, some '2'⟩) ∧
    (skipWhitespace ⟨[' ', 'x'], 1, 2, some '2'⟩).peek = some (3, 'x') ∧
    parse "42 x" = .error (.Syntax 3 ("trailing character '" ++ 'x'.toString ++ "' after JSON value")) :=
  ⟨rfl, rfl, (c9_trailing_whitespace_only.1 "42 x" _ _ rfl).2 3 'x' rfl⟩

/-- An ASCII hex digit occupies one UTF-8 byte. -/
theorem hexUtf8Size (c : Char) (h : rustIsAsciiHexdigit c = true) : c.utf8Size = 1 := by
  simp only [rustIsAsciiHexdigit, Bool.or_eq_true, Bool.and_eq_true, decide_eq_true_eq] at h
  have hle : c.val ≤ UInt32.ofNatCore 0x7F (by decide) := by
    rcases h with (⟨-, h2⟩ | ⟨-, h2⟩) | ⟨-, h2⟩ <;>
      (rw [Char.le_def] at h2
       rw [UInt32.le_def, BitVec.le_def] at h2 ⊢
       exact Nat.le_trans h2 (by decide))
  unfold Char.utf8Size
  rw [if_pos hle]

/-- The string-literal loop consumes a run of plain characters (not quotes,
not backslashes) without effect beyond accumulating them and advancing the
byte cursor by their UTF-8 length. -/
theorem parseStringLoop_plain_prefix (rest : List Char) :
    ∀ (pre : List Char) (f np : Nat) (p : Nat) (l : Option Char) (acc : String),
      (∀ c ∈ pre, c ≠ '"' ∧ c ≠ '\\') →
      ∃ p' l' acc',
        Parser.parseStringLoop (pre.length + f) (pre ++ rest) p np l acc false =
          Parser.parseStringLoop f rest p' (np + utf8Len pre) l' acc' false := by
  intro pre
  induction pre with
  | nil =>
    intro f np p l acc _
    exact ⟨p, l, acc, by simp [utf8Len]⟩
  | cons c cs ih =>
    intro f np p l acc h
    obtain ⟨hq, hbs⟩ := h c (List.mem_cons_self ..)
    have hs : ∀ x ∈ cs, x ≠ '"' ∧ x ≠ '\\' := fun x hx => h x (List.mem_cons_of_mem _ hx)
    have flen : (c :: cs).length + f = (cs.length + f) + 1 := by simp; omega
    have step : Parser.parseStringLoop ((c :: cs).length + f) ((c :: cs) ++ rest) p np l acc false =
        Parser.parseStringLoop (cs.length + f) (cs ++ rest) np (np + c.utf8Size) (some c)
          (acc.push c) false := by
      rw [flen]
      simp only [List.cons_append, Parser.parseStringLoop, decide_eq_false hq,
        decide_eq_false hbs, Bool.not_false, Bool.true_and, Bool.false_and,
        Bool.false_eq_true, if_false, ite_false, List.append_eq]
    rw [step]
    obtain ⟨p', l', acc', heq⟩ := ih f (np + c.utf8Size) np (some c) (acc.push c) hs
    refine ⟨p', l', acc', ?_⟩
    rw [heq]
    have : np + c.utf8Size + utf8Len cs = np + utf8Len (c :: cs) := by
      simp [utf8Len]; omega
    rw [this]

/-- C10: a string literal whose content is a run of plain characters followed
by a \uXXXX escape denoting a code point in the surrogate range
0xD800-0xDFFF is rejected with the Syntax diagnostic "invalid unicode code
point" at the byte position of the fourth hex digit; in particular the
parser never combines two adjacent \uXXXX escapes into a surrogate pair — a
well-formed pair such as "𝄞" is rejected at the first escape. -/
theorem c10_surrogate_escapes_rejected :
    (∀ (pre : List Char) (d1 d2 d3 d4 : Char) (tail : List Char),
      (∀ c ∈ pre, c ≠ '"' ∧ c ≠ '\\') →
      rustIsAsciiHexdigit d1 = true → rustIsAsciiHexdigit d2 = true →
      rustIsAsciiHexdigit d3 = true → rustIsAsciiHexdigit d4 = true →
      0xD800 ≤ ((hexDigitVal d1 * 16 + hexDigitVal d2) * 16 + hexDigitVal d3) * 16 + hexDigitVal d4 →
      ((hexDigitVal d1 * 16 + hexDigitVal d2) * 16 + hexDigitVal d3) * 16 + hexDigitVal d4 ≤ 0xDFFF →
      parse (String.mk ('"' :: pre ++ '\\' :: 'u' :: d1 :: d2 :: d3 :: d4 :: tail)) =
        .error (.Syntax (utf8Len pre + 6) "invalid unicode code point")) ∧
    parse "\"\\uD834\\uDD1E\"" = .error (.Syntax 6 "invalid unicode code point") := by
  refine ⟨?_, rfl⟩
  intro pre d1 d2 d3 d4 tail hpre h1 h2 h3 h4 hlo hhi
  have key : Parser.parse
        (parserFuel (String.mk ('"' :: pre ++ '\\' :: 'u' :: d1 :: d2 :: d3 :: d4 :: tail)))
        (PState.init (String.mk ('"' :: pre ++ '\\' :: 'u' :: d1 :: d2 :: d3 :: d4 :: tail))) =
      Parser.parseStringLoop ((pre ++ '\\' :: 'u' :: d1 :: d2 :: d3 :: d4 :: tail).length + 1)
        (pre ++ '\\' :: 'u' :: d1 :: d2 :: d3 :: d4 :: tail) 0 1 (some '"') "" false := rfl
  have flen : (pre ++ '\\' :: 'u' :: d1 :: d2 :: d3 :: d4 :: tail).length + 1 =
      pre.length + (('\\' :: 'u' :: d1 :: d2 :: d3 :: d4 :: tail).length + 1) := by
    simp [List.length_append]; omega
  obtain ⟨p', l', acc', heq⟩ :=
    parseStringLoop_plain_prefix ('\\' :: 'u' :: d1 :: d2 :: d3 :: d4 :: tail) pre
      (('\\' :: 'u' :: d1 :: d2 :: d3 :: d4 :: tail).length + 1) 1 0 (some '"') "" hpre
  have loopEq : Parser.parseStringLoop
        (('\\' :: 'u' :: d1 :: d2 :: d3 :: d4 :: tail).length + 1)
        ('\\' :: 'u' :: d1 :: d2 :: d3 :: d4 :: tail) p' (1 + utf8Len pre) l' acc' false =
      .error (.Syntax (utf8Len pre + 6) "invalid unicode code point") := by
    simp only [List.length_cons, Parser.parseStringLoop, readHex4,
      h1, h2, h3, h4, hexUtf8Size d1 h1, hexUtf8Size d2 h2, hexUtf8Size d3 h3, hexUtf8Size d4 h4,
      decide_eq_true hlo, decide_eq_true hhi,
      Bool.not_false, Bool.not_true, Bool.true_and, Bool.false_and, Bool.and_self,
      Bool.false_eq_true, if_false, ite_false, if_true, ite_true]
    have s1 : '\\'.utf8Size = 1 := rfl
    have s2 : 'u'.utf8Size = 1 := rfl
    simp [s1, s2]
    omega
  unfold parse
  rw [key, flen, heq, loopEq]

/-- C10 witness: the theorem applied at the empty plain prefix and the
concrete escape \uD800 (the literal "\uD800"). -/
theorem c10_surrogate_escapes_rejected_witness :
    (∀ c ∈ ([] : List Char), c ≠ '"' ∧ c ≠ '\\') ∧
    rustIsAsciiHexdigit 'D' = true ∧ rustIsAsciiHexdigit '8' = true ∧
    rustIsAsciiHexdigit '0' = true ∧
    0xD800 ≤ ((hexDigitVal 'D' * 16 + hexDigitVal '8') * 16 + hexDigitVal '0') * 16 + hexDigitVal '0' ∧
    ((hexDigitVal 'D' * 16 + hexDigitVal '8') * 16 + hexDigitVal '0') * 16 + hexDigitVal '0' ≤ 0xDFFF ∧
    parse (String.mk ('"' :: [] ++ '\\' :: 'u' :: 'D' :: '8' :: '0' :: '0' :: ['"'])) =
      .error (.Syntax (utf8Len [] + 6) "invalid unicode code point") :=
  ⟨by simp, rfl, rfl, rfl, by decide, by decide,
    c10_surrogate_escapes_rejected.1 [] 'D' '8' '0' '0' ['"']
      (by simp) rfl rfl rfl rfl (by decide) (by decide)⟩

/-- C2 counterexample: the claim asserts decode(encode(x)) == x for every
declared instance, including skip fields. A skip field is omitted on encode
and decoded to the carrier default, so a Person whose _internal_id (a skip
field) is Some(12345) round-trips to the SAME record with _internal_id =
None, which differs from the original. -/
theorem c2_skip_field_breaks_roundtrip :
    personRoundtrip ⟨"John Doe", 30, true, some "john@example.com", some 12345⟩ =
      .ok ⟨"John Doe", 30, true, some "john@example.com", none⟩ ∧
    (⟨"John Doe", 30, true, some "john@example.com", none⟩ : Person) ≠
      ⟨"John Doe", 30, true, some "john@example.com", some 12345⟩ :=
  ⟨rfl, by decide⟩

/-- C2 (amended): decode(encode(x)) == x holds for every instance whose
skip-directive fields hold the carrier default (and whose u32 carriers are
in range, which the host type guarantees): every Person with _internal_id =
None round-trips, as does every Status value — covering rename,
skip_if_none-free optional fields, unit, positional and named variants. -/
theorem c2_roundtrip_amended :
    (∀ p : Person, p._internal_id = none → p.age ≤ 4294967295 → personRoundtrip p = .ok p) ∧
    (∀ s : Status, statusWf s → statusRoundtrip s = .ok s) := by
  constructor
  · intro p hid hle
    obtain ⟨n, ag, b, em, iid⟩ := p
    simp only at hid hle
    subst hid
    cases em with
    | none =>
      have step1 : personRoundtrip ⟨n, ag, b, none, none⟩ =
          Person.deserialize (.Object [("name", .String n), ("age", .Number (.fin (ag : Int) 0)),
            ("is_active", .Bool b), ("emailAddress", .Null)]) := rfl
      rw [step1]
      simp [Person.deserialize, objGet, u32_deserialize_natCast ag hle, Deserialize.string,
        Deserialize.bool, Value.is_null, Except.bind]
      rfl
    | some s =>
      have step1 : personRoundtrip ⟨n, ag, b, some s, none⟩ =
          Person.deserialize (.Object [("name", .String n), ("age", .Number (.fin (ag : Int) 0)),
            ("is_active", .Bool b), ("emailAddress", .String s)]) := rfl
      rw [step1]
      simp [Person.deserialize, objGet, u32_deserialize_natCast ag hle, Deserialize.string,
        Deserialize.bool, Value.is_null, Except.bind]
      rfl
  · intro s hwf
    cases s with
    | Active => rfl
    | Inactive => rfl
    | Pending v => rfl
    | Custom code message =>
      simp only [statusWf] at hwf
      have step1 : statusRoundtrip (.Custom code message) =
          Status.deserialize (.Object [("type", .String "Custom"),
            ("code", .Number (.fin (code : Int) 0)), ("message", .String message)]) := rfl
      rw [step1]
      simp [Status.deserialize, objGet, u32_deserialize_natCast code hwf, Deserialize.string,
        Except.bind]
      rfl

/-- C2 witness: the amended round-trip applied at a concrete Person with a
default skip field and at the concrete Status.Custom 5 "m". -/
theorem c2_roundtrip_amended_witness :
    ((⟨"a", 1, false, none, none⟩ : Person)._internal_id = none) ∧
    ((⟨"a", 1, false, none, none⟩ : Person).age ≤ 4294967295) ∧
    personRoundtrip ⟨"a", 1, false, none, none⟩ = .ok ⟨"a", 1, false, none, none⟩ ∧
    statusWf (.Custom 5 "m") ∧
    statusRoundtrip (.Custom 5 "m") = .ok (.Custom 5 "m") :=
  ⟨rfl, by decide, c2_roundtrip_amended.1 ⟨"a", 1, false, none, none⟩ rfl (by decide),
   (by decide : (5 : Nat) ≤ 4294967295),
   c2_roundtrip_amended.2 (.Custom 5 "m") (by decide : (5 : Nat) ≤ 4294967295)⟩

/-- C7: the generated Status coders follow the tagged-union wire convention.
A unit variant encodes to the bare String of its wire name; the positional
variant of arity 1 encodes to an Object with "type" and a one-element "data"
Array. On decode: a String selects the matching unit variant and any other
String is a TypeError; an Object without a String-valued "type" key is
MissingField("type"); a "data" Array of the wrong arity, a missing or
non-Array "data", and an unknown tag are TypeErrors; and every non-String,
non-Object input shape is a TypeError. -/
theorem c7_enum_wire_convention :
    (Status.serialize .Active = .ok (.String "Active")) ∧
    (Status.serialize .Inactive = .ok (.String "Inactive")) ∧
    (∀ s, Status.serialize (.Pending s) =
      .ok (.Object [("type", .String "Pending"), ("data", .Array [.String s])])) ∧
    (Status.deserialize (.String "Active") = .ok .Active) ∧
    (Status.deserialize (.String "Inactive") = .ok .Inactive) ∧
    (∀ s, s ≠ "Active" → s ≠ "Inactive" →
      Status.deserialize (.String s) = .error (.TypeError ("unknown enum variant: " ++ s))) ∧
    (∀ m, (∀ t, objGet m "type" ≠ some (.String t)) →
      Status.deserialize (.Object m) = .error (.MissingField "type")) ∧
    (∀ m arr, objGet m "type" = some (.String "Pending") → objGet m "data" = some (.Array arr) →
      arr.length ≠ 1 →
      Status.deserialize (.Object m) = .error (.TypeError
        ("expected array with 1 element(s), found array with " ++ toString arr.length ++ " elements"))) ∧
    (∀ m, objGet m "type" = some (.String "Pending") →
      (∀ arr, objGet m "data" ≠ some (.Array arr)) →
      Status.deserialize (.Object m) = .error (.TypeError "expected array for enum variant data")) ∧
    (∀ m t, objGet m "type" = some (.String t) → t ≠ "Pending" → t ≠ "Custom" →
      Status.deserialize (.Object m) = .error (.TypeError ("unknown enum variant type: " ++ t))) ∧
    (∀ v, (match v with | Value.String _ => False | Value.Object _ => False | _ => True) →
      ∃ msg, Status.deserialize v = .error (.TypeError msg)) := by
  refine ⟨rfl, rfl, fun s => rfl, rfl, rfl, ?_, ?_, ?_, ?_, ?_, ?_⟩
  · intro s h1 h2
    simp [Status.deserialize, h1, h2]
  · intro m hno
    cases h : objGet m "type" with
    | none => simp [Status.deserialize, h]
    | some v =>
      cases v with
      | String t => exact absurd h (hno t)
      | _ => simp [Status.deserialize, h]
  · intro m arr ht hd hlen
    match arr, hlen with
    | [], _ => simp [Status.deserialize, ht, hd]
    | [x], h => exact absurd rfl h
    | x :: y :: ys, _ => simp [Status.deserialize, ht, hd]
  · intro m ht hno
    cases h : objGet m "data" with
    | none => simp [Status.deserialize, ht, h]
    | some v =>
      cases v with
      | Array arr => exact absurd h (hno arr)
      | _ => simp [Status.deserialize, ht, h]
  · intro m t ht h1 h2
    simp [Status.deserialize, ht, h1, h2]
  · intro v hv
    cases v with
    | Null => exact ⟨_, rfl⟩
    | Bool b => exact ⟨_, rfl⟩
    | Number n => exact ⟨_, rfl⟩
    | Array l => exact ⟨_, rfl⟩
    | String s => exact absurd hv (by simp)
    | Object o => exact absurd hv (by simp)

/-- C7 witness: the decoder clauses of the theorem applied at the concrete
objects with a wrong-arity "data" and with an unknown variant string. -/
theorem c7_enum_wire_convention_witness :
    objGet [("type", Value.String "Pending"), ("data", Value.Array [])] "type" =
      some (Value.String "Pending") ∧
    objGet [("type", Value.String "Pending"), ("data", Value.Array [])] "data" =
      some (Value.Array []) ∧
    (List.length ([] : List Value) ≠ 1) ∧
    Status.deserialize (.Object [("type", Value.String "Pending"), ("data", Value.Array [])]) =
      .error (.TypeError ("expected array with 1 element(s), found array with " ++
        toString (List.length ([] : List Value)) ++ " elements")) ∧
    ("Bogus" ≠ "Active") ∧ ("Bogus" ≠ "Inactive") ∧
    Status.deserialize (.String "Bogus") = .error (.TypeError ("unknown enum variant: " ++ "Bogus")) :=
  ⟨rfl, rfl, by decide, c7_enum_wire_convention.2.2.2.2.2.2.2.1
      [("type", Value.String "Pending"), ("data", Value.Array [])] [] rfl rfl (by decide),
   by decide, by decide,
   c7_enum_wire_convention.2.2.2.2.2.1 "Bogus" (by decide) (by decide)⟩

/-- C8: the generated Person decoder resolves fields per the specification
table: the skip field _internal_id always gets the default None; the
optional field email yields None on an absent key or an explicit Null and
Some(decode(inner)) on any other present value; a non-optional field decodes
its present value with the inner carrier, and its absence is MissingField
with the field's wire name — in particular decoding
\x7b"age": 30, "is_active": true\x7d fails with MissingField("name"). -/
theorem c8_record_decoder_field_rules :
    (∀ m, objGet m "name" = none → Person.deserialize (.Object m) = .error (.MissingField "name")) ∧
    (Person.deserialize (.Object [("age", .Number (.fin 30 0)), ("is_active", .Bool true)]) =
      .error (.MissingField "name")) ∧
    (∀ m n (ag : Nat) b, objGet m "name" = some (.String n) →
      objGet m "age" = some (.Number (.fin (ag : Int) 0)) → ag ≤ 4294967295 →
      objGet m "is_active" = some (.Bool b) →
      ((objGet m "emailAddress" = none →
        Person.deserialize (.Object m) = .ok ⟨n, ag, b, none, none⟩) ∧
       (objGet m "emailAddress" = some .Null →
        Person.deserialize (.Object m) = .ok ⟨n, ag, b, none, none⟩) ∧
       (∀ s, objGet m "emailAddress" = some (.String s) →
        Person.deserialize (.Object m) = .ok ⟨n, ag, b, some s, none⟩))) := by
  refine ⟨?_, rfl, ?_⟩
  · intro m h
    simp only [Person.deserialize, h]
    rfl
  · intro m n ag b hn ha hle hb
    refine ⟨?_, ?_, ?_⟩
    · intro he
      simp only [Person.deserialize, hn, ha, hb, he, Deserialize.string, Deserialize.bool,
        u32_deserialize_natCast ag hle]
      rfl
    · intro he
      simp only [Person.deserialize, hn, ha, hb, he, Deserialize.string, Deserialize.bool,
        u32_deserialize_natCast ag hle, Value.is_null]
      rfl
    · intro s he
      simp only [Person.deserialize, hn, ha, hb, he, Deserialize.string, Deserialize.bool,
        u32_deserialize_natCast ag hle, Value.is_null]
      rfl

/-- C8 witness: the theorem applied at the concrete object of scenario 3
(missing "name") and at a concrete complete object without an email key. -/
theorem c8_record_decoder_field_rules_witness :
    objGet [("age", Value.Number (.fin 30 0)), ("is_active", Value.Bool true)] "name" = none ∧
    Person.deserialize (.Object [("age", Value.Number (.fin 30 0)), ("is_active", Value.Bool true)]) =
      .error (.MissingField "name") ∧
    Person.deserialize (.Object [("name", Value.String "John"), ("age", Value.Number (.fin 30 0)),
      ("is_active", Value.Bool true)]) = .ok ⟨"John", 30, true, none, none⟩ :=
  ⟨rfl, c8_record_decoder_field_rules.1 _ rfl,
    (c8_record_decoder_field_rules.2.2
      [("name", Value.String "John"), ("age", Value.Number (.fin 30 0)), ("is_active", Value.Bool true)]
      "John" 30 true rfl rfl (by decide) rfl).1 rfl⟩

end FastJson
